import Mathlib

/-!
Verification of the annotation-store API layer: the search-query builder
with its NIPSA visibility filter (src/h/api/search.py), the annotation
mutation views (src/h/api/views.py) and the store-side anonymization hook
(src/h/api/store.py).

Python values travelling through these functions are JSON-like: strings,
booleans, integers, lists and string-keyed dictionaries.  A dictionary is
embedded as an insertion-ordered association list; Python guarantees key
uniqueness, and on lists with duplicate keys the operations below agree
with the first binding that lookup sees.  Numbers are modelled as integers
(the code only ever parses integers).
-/

namespace HApi

/-- A JSON-like Python value. -/
inductive Json where
  | null : Json
  | str : String → Json
  | bool : Bool → Json
  | num : Int → Json
  | arr : List Json → Json
  | obj : List (String × Json) → Json
deriving Repr

mutual

/-- Structural boolean equality on values. -/
def beqJson : Json → Json → Bool
  | .null, .null => true
  | .str a, .str b => a == b
  | .bool a, .bool b => a == b
  | .num a, .num b => a == b
  | .arr a, .arr b => beqJsonList a b
  | .obj a, .obj b => beqJsonObj a b
  | _, _ => false

/-- Structural boolean equality on value lists. -/
def beqJsonList : List Json → List Json → Bool
  | [], [] => true
  | x :: xs, y :: ys => beqJson x y && beqJsonList xs ys
  | _, _ => false

/-- Structural boolean equality on binding lists. -/
def beqJsonObj : List (String × Json) → List (String × Json) → Bool
  | [], [] => true
  | (k, v) :: xs, (k', v') :: ys => k == k' && beqJson v v' && beqJsonObj xs ys
  | _, _ => false

end

mutual

theorem beqJson_refl : ∀ a, beqJson a a = true
  | .null => rfl
  | .str s => by simp [beqJson]
  | .bool b => by simp [beqJson]
  | .num n => by simp [beqJson]
  | .arr l => by simp [beqJson, beqJsonList_refl l]
  | .obj l => by simp [beqJson, beqJsonObj_refl l]

theorem beqJsonList_refl : ∀ l, beqJsonList l l = true
  | [] => rfl
  | x :: xs => by simp [beqJsonList, beqJson_refl x, beqJsonList_refl xs]

theorem beqJsonObj_refl : ∀ l, beqJsonObj l l = true
  | [] => rfl
  | (k, v) :: xs => by
      simp [beqJsonObj, beqJson_refl v, beqJsonObj_refl xs]

end

mutual

theorem eq_of_beqJson : ∀ a b, beqJson a b = true → a = b
  | .null, .null, _ => rfl
  | .str a, .str b, h => by simp [beqJson] at h; rw [h]
  | .bool a, .bool b, h => by simp [beqJson] at h; rw [h]
  | .num a, .num b, h => by simp [beqJson] at h; rw [h]
  | .arr a, .arr b, h => by rw [eq_of_beqJsonList a b h]
  | .obj a, .obj b, h => by rw [eq_of_beqJsonObj a b h]
  | .null, .str _, h => nomatch h
  | .null, .bool _, h => nomatch h
  | .null, .num _, h => nomatch h
  | .null, .arr _, h => nomatch h
  | .null, .obj _, h => nomatch h
  | .str _, .null, h => nomatch h
  | .str _, .bool _, h => nomatch h
  | .str _, .num _, h => nomatch h
  | .str _, .arr _, h => nomatch h
  | .str _, .obj _, h => nomatch h
  | .bool _, .null, h => nomatch h
  | .bool _, .str _, h => nomatch h
  | .bool _, .num _, h => nomatch h
  | .bool _, .arr _, h => nomatch h
  | .bool _, .obj _, h => nomatch h
  | .num _, .null, h => nomatch h
  | .num _, .str _, h => nomatch h
  | .num _, .bool _, h => nomatch h
  | .num _, .arr _, h => nomatch h
  | .num _, .obj _, h => nomatch h
  | .arr _, .null, h => nomatch h
  | .arr _, .str _, h => nomatch h
  | .arr _, .bool _, h => nomatch h
  | .arr _, .num _, h => nomatch h
  | .arr _, .obj _, h => nomatch h
  | .obj _, .null, h => nomatch h
  | .obj _, .str _, h => nomatch h
  | .obj _, .bool _, h => nomatch h
  | .obj _, .num _, h => nomatch h
  | .obj _, .arr _, h => nomatch h

theorem eq_of_beqJsonList : ∀ a b, beqJsonList a b = true → a = b
  | [], [], _ => rfl
  | x :: xs, y :: ys, h => by
      simp only [beqJsonList, Bool.and_eq_true] at h
      rw [eq_of_beqJson x y h.1, eq_of_beqJsonList xs ys h.2]
  | [], _ :: _, h => nomatch h
  | _ :: _, [], h => nomatch h

theorem eq_of_beqJsonObj : ∀ a b, beqJsonObj a b = true → a = b
  | [], [], _ => rfl
  | (k, v) :: xs, (k', v') :: ys, h => by
      simp only [beqJsonObj, Bool.and_eq_true, beq_iff_eq] at h
      rw [h.1.1, eq_of_beqJson v v' h.1.2, eq_of_beqJsonObj xs ys h.2]
  | [], _ :: _, h => nomatch h
  | _ :: _, [], h => nomatch h

end

instance : DecidableEq Json := fun a b =>
  decidable_of_iff (beqJson a b = true)
    ⟨eq_of_beqJson a b, fun h => h ▸ beqJson_refl a⟩

/-- A Python dictionary with string keys, as an insertion-ordered
association list. -/
abbrev Dict := List (String × Json)

/-- Dictionary lookup, returning the first binding for the key. -/
def getVal? : Dict → String → Option Json
  | [], _ => none
  | p :: rest, k => if p.1 = k then some p.2 else getVal? rest k

/-- Python membership test for a dictionary key. -/
def containsKey (d : Dict) (k : String) : Bool :=
  (getVal? d k).isSome

/-- Dictionary assignment: replaces the first binding for the key, or
appends a new binding at the end, as a Python dict does. -/
def setKey : Dict → String → Json → Dict
  | [], k, v => [(k, v)]
  | (k', v') :: rest, k, v =>
      if k' = k then (k, v) :: rest else (k', v') :: setKey rest k v

/-- Dictionary deletion of a key (dict.pop): removes every binding for
the key. -/
def eraseKey : Dict → String → Dict
  | [], _ => []
  | p :: rest, k => if p.1 = k then eraseKey rest k else p :: eraseKey rest k

/-- Python dict.update: folds the new bindings into the dictionary in
order, each one overwriting the previous binding for its key. -/
def updateDict (d : Dict) (fields : Dict) : Dict :=
  fields.foldl (fun acc p => setKey acc p.1 p.2) d

/-- Python truthiness for the values of the model. -/
def pyTruthy : Json → Bool
  | .null => false
  | .str s => !(s == "")
  | .bool b => b
  | .num n => !(n == 0)
  | .arr l => !l.isEmpty
  | .obj l => !l.isEmpty

/-- Do all keys of the first binding list appear in the second? -/
def keysSubset (b a : List (String × Json)) : Bool :=
  b.all (fun p => containsKey a p.1)

mutual

/-- Python equality (the == operator) on the values of the model: booleans
compare equal to the corresponding integers, lists compare elementwise, and
dictionaries compare by key set and per-key values, independently of binding
order.  Python dictionaries never hold duplicate keys; on association lists
with duplicates the first binding of each key is the one compared. -/
def pyEq : Json → Json → Bool
  | .null, .null => true
  | .str a, .str b => a == b
  | .bool a, .bool b => a == b
  | .num a, .num b => a == b
  | .bool a, .num b => (if a then (1 : Int) else 0) == b
  | .num a, .bool b => a == (if b then (1 : Int) else 0)
  | .arr a, .arr b => pyEqList a b
  | .obj a, .obj b => pyEqObjSub a b && keysSubset b a
  | _, _ => false

/-- Python equality on lists: same length and pairwise equal elements. -/
def pyEqList : List Json → List Json → Bool
  | [], [] => true
  | x :: xs, y :: ys => pyEq x y && pyEqList xs ys
  | _, _ => false

/-- One direction of Python dictionary equality: every binding of the
first list has a Python-equal value at its key in the second. -/
def pyEqObjSub : List (String × Json) → List (String × Json) → Bool
  | [], _ => true
  | (k, v) :: rest, b =>
      (match getVal? b k with
       | some w => pyEq v w
       | none => false) && pyEqObjSub rest b

end

/-- A Python exception relevant to these code paths.  The typeError case
abstracts iteration over a non-list permission value, which the claims
never exercise. -/
inductive PyError where
  | runtimeError (msg : String) (status_code : Nat) : PyError
  | keyError (key : String) : PyError
  | typeError : PyError
deriving Repr, DecidableEq

/-- Outcome of a Python call that may raise. -/
inductive PyResult (α : Type) where
  | ok (a : α) : PyResult α
  | exn (e : PyError) : PyResult α
deriving Repr, DecidableEq

/-- Sequencing of fallible Python calls: the second runs only when the
first returned normally. -/
def pyBind {α β : Type} : PyResult α → (α → PyResult β) → PyResult β
  | .ok a, f => f a
  | .exn e, _ => .exn e

/-- The protected annotation fields of src/h/api/views.py (line 21):
these are not to be set by the user. -/
def PROTECTED_FIELDS : List String := ["created", "updated", "user", "consumer", "id"]

/-- The loop shared by _create_annotation and _update_annotation that pops
every protected field from the payload, mutating it in place. -/
def stripProtected (fields : Dict) : Dict :=
  PROTECTED_FIELDS.foldl (fun d k => eraseKey d k) fields

/-- Modelled from the spec: the suppression-store lookup
nipsa_models.user_read called by views.py, whose definition is not among
the given sources (src/h/api/nipsa/models.py holds only the NipsaUser
table).  Per the spec a user is suppressed exactly when a SuppressionEntry
for its id exists; the suppression set is passed in as a list of ids. -/
def user_read (nipsa_list : List String) (user_id : String) : Bool :=
  nipsa_list.contains user_id

/-- The _nipsa helper of src/h/api/views.py (lines 206-215). -/
def _nipsa (nipsa_list : List String) (user_id : String) : Bool :=
  if user_read nipsa_list user_id then true else false

/-- The _create_annotation helper of src/h/api/views.py (lines 218-240).
The Python function mutates the fields payload in place (popping the
protected keys) and builds the annotation; the embedding returns the
final payload state together with the annotation as handed to save.
Persistence itself (id and timestamp assignment by the external store)
is outside the modelled core. -/
def _create_annot (nipsa_list : List String) (fields : Dict)
    (user_id consumer_key : String) : Dict × Dict :=
  let fields := stripProtected fields
  let annot := fields
  let annot := setKey annot "user" (Json.str user_id)
  let annot := setKey annot "consumer" (Json.str consumer_key)
  let annot :=
    if _nipsa nipsa_list user_id then
      setKey annot "not_in_public_site_areas" (Json.bool true)
    else annot
  (fields, annot)

/-- The per-action loop of the anonymization helpers: each action key of
the permissions dictionary keeps only the roles that are not Python-equal
to the captured user.  Iterating a non-list value is modelled as a type
error (see PyError.typeError). -/
def anonActions : List (String × Json) → Json → PyResult (List (String × Json))
  | [], _ => .ok []
  | (a, Json.arr l) :: rest, user =>
      match anonActions rest user with
      | .ok r => .ok ((a, Json.arr (l.filter (fun role => !(pyEq role user)))) :: r)
      | .exn e => .exn e
  | _ :: _, _ => .exn .typeError

/-- The pure shape of a successful anonActions run. -/
def filterPerms : List (String × Json) → Json → List (String × Json)
  | [], _ => []
  | (a, Json.arr l) :: rest, user =>
      (a, Json.arr (l.filter (fun role => !(pyEq role user)))) :: filterPerms rest user
  | (a, v) :: rest, user => (a, v) :: filterPerms rest user

/-- Are all action values of a permissions dictionary lists? -/
def allArr : List (String × Json) → Bool
  | [] => true
  | (_, Json.arr _) :: rest => allArr rest
  | _ => false

/-- Every action value is a list none of whose roles is Python-equal to
the empty string (the identity an anonymized record carries). -/
def noEmptyRoles : List (String × Json) → Bool
  | [] => true
  | (_, Json.arr l) :: rest =>
      l.all (fun role => !(pyEq role (Json.str ""))) && noEmptyRoles rest
  | _ => false

/-- The _anonymize_deletes helper of src/h/api/views.py (lines 268-282):
pops the author (raising KeyError when the user key is absent, since pop
is called without a default) and removes the author from every
permissions action list. -/
def _anonymize_deletes (annot : Dict) : PyResult Dict :=
  match getVal? annot "user" with
  | none => .exn (.keyError "user")
  | some user =>
    let annot := eraseKey annot "user"
    match getVal? annot "permissions" with
    | none => .ok annot
    | some (Json.obj perms) =>
        match anonActions perms user with
        | .ok filtered => .ok (setKey annot "permissions" (Json.obj filtered))
        | .exn e => .exn e
    | some _ => .exn .typeError

/-- The anonymize_deletes hook of src/h/api/store.py (lines 71-84): only
acts on records whose deleted flag is truthy, blanks a truthy user, and
removes the captured user from every permissions action list. -/
def anonymize_deletes (annot : Dict) : PyResult Dict :=
  if pyTruthy ((getVal? annot "deleted").getD (Json.bool false)) then
    let user := (getVal? annot "user").getD (Json.str "")
    let annot :=
      if pyTruthy user then setKey annot "user" (Json.str "") else annot
    match getVal? annot "permissions" with
    | none => .ok annot
    | some (Json.obj perms) =>
        match anonActions perms user with
        | .ok filtered => .ok (setKey annot "permissions" (Json.obj filtered))
        | .exn e => .exn e
    | some _ => .exn .typeError
  else .ok annot

/-- The permission-change test of _update_annotation (views.py lines
249-252): the payload holds a permissions key whose value differs, under
Python equality, from the current permissions of the annotation (an empty
dictionary when absent). -/
def changing_permissions (annot fields : Dict) : Bool :=
  containsKey fields "permissions" &&
    !(pyEq ((getVal? fields "permissions").getD Json.null)
        ((getVal? annot "permissions").getD (Json.obj [])))

/-- Post-call state of the mutable arguments of _update_annotation
together with its outcome.  The Python function mutates the payload and
the annotation in place and either returns None or raises, so the
embedding returns the final state of both.  On the modelled type error
the returned annotation state is the merged record (Python would have
partially rewritten it). -/
structure MutationState where
  fields : Dict
  annot : Dict
  result : PyResult Unit
deriving Repr, DecidableEq

/-- The _update_annotation helper of src/h/api/views.py (lines 243-265):
pop the protected fields from the payload, reject a permission change
without the admin capability, merge the payload into the annotation,
anonymize when the merged record is flagged deleted, and save. -/
def _update_annot (annot fields : Dict) (has_admin_permission : Bool) :
    MutationState :=
  let fields := stripProtected fields
  if changing_permissions annot fields && !has_admin_permission then
    { fields := fields, annot := annot,
      result := .exn (.runtimeError "Not authorized to change annotation permissions." 401) }
  else
    let annot := updateDict annot fields
    if pyTruthy ((getVal? annot "deleted").getD (Json.bool false)) then
      match _anonymize_deletes annot with
      | .ok a => { fields := fields, annot := a, result := .ok () }
      | .exn e => { fields := fields, annot := annot, result := .exn e }
    else
      { fields := fields, annot := annot, result := .ok () }

/-- The JSON body a mutation view answers with: the annotation itself, the
failure document produced by _api_error together with its status code, or
an exception escaping the view uncaught. -/
inductive ViewResult where
  | annot (a : Dict) : ViewResult
  | apiError (reason : String) (status_code : Nat) : ViewResult
  | uncaught (e : PyError) : ViewResult
deriving Repr, DecidableEq

/-- Observable outcome of the update view: its response, the final state
of the annotation object, and the published events (action name paired
with the annotation snapshot handed to the notification bus). -/
structure UpdateViewOutcome where
  response : ViewResult
  annot : Dict
  events : List (String × Dict)
deriving Repr, DecidableEq

/-- The update view of src/h/api/views.py (lines 141-170), from the point
where the JSON payload has been decoded: runs _update_annotation, turns a
RuntimeError into an _api_error response, lets any other exception
escape, and publishes a single update event only on success. -/
def update_view (annot fields : Dict) (has_admin_permission : Bool) :
    UpdateViewOutcome :=
  let st := _update_annot annot fields has_admin_permission
  match st.result with
  | .ok _ =>
      { response := .annot st.annot, annot := st.annot,
        events := [("update", st.annot)] }
  | .exn (.runtimeError msg code) =>
      { response := .apiError msg code, annot := st.annot, events := [] }
  | .exn e =>
      { response := .uncaught e, annot := st.annot, events := [] }

/-- HTTP request parameters as a webob MultiDict: an ordered list of
key-value pairs in which a key may repeat. -/
abbrev Params := List (String × String)

/-- The last value bound to a key, the one webob MultiDict subscripting
returns. -/
def lastVal? (ps : Params) (k : String) : Option String :=
  (ps.filterMap (fun p => if p.1 == k then some p.2 else none)).getLast?

/-- webob MultiDict.pop: hands back the last value for the key, if any,
and removes every pair carrying that key. -/
def popParam (ps : Params) (k : String) : Option String × Params :=
  (lastVal? ps k, ps.filter (fun p => p.1 ≠ k))

/-- webob MultiDict.getall: every value for the key, in insertion order. -/
def getAllParams (ps : Params) (k : String) : List String :=
  ps.filterMap (fun p => if p.1 == k then some p.2 else none)

/-- webob MultiDict membership test. -/
def containsParam (ps : Params) (k : String) : Bool :=
  ps.any (fun p => p.1 == k)

/-- An ascii whitespace character, as stripped by Python int() before
parsing. -/
def isPySpace (c : Char) : Bool :=
  c == ' ' || c == '\t' || c == '\n' || c == '\r'

/-- Python int() applied to a string: optional surrounding whitespace, an
optional sign, then one or more decimal digits (digit-group underscores
and non-ascii whitespace are not modelled); anything else raises
ValueError, modelled as none. -/
def pyInt? (s : String) : Option Int :=
  let t := ((s.data.dropWhile isPySpace).reverse.dropWhile isPySpace).reverse
  let signed : Int × List Char :=
    match t with
    | '-' :: rest => (-1, rest)
    | '+' :: rest => (1, rest)
    | _ => (1, t)
  if !signed.2.isEmpty && signed.2.all Char.isDigit then
    some (signed.1 *
      Int.ofNat (signed.2.foldl (fun acc c => acc * 10 + (c.toNat - 48)) 0))
  else none

/-- The clause of nipsa_filter (src/h/api/search.py line 67) that lets
through every record whose NIPSA flag is not true. -/
def notNipsaClause : Json :=
  Json.obj [("not", Json.obj [("term",
    Json.obj [("not_in_public_site_areas", Json.bool true)])])]

/-- The clause of nipsa_filter (line 71) that lets through the records
authored by the given user. -/
def userTermClause (user_id : String) : Json :=
  Json.obj [("term", Json.obj [("user", Json.str user_id)])]

/-- Python truthiness of the optional user_id argument: None and the
empty string are falsy. -/
def truthyId : Option String → Bool
  | none => false
  | some s => !(s == "")

/-- The should clauses assembled by nipsa_filter: if any one of them is
true the annotation gets through the filter. -/
def nipsa_should_clauses (user_id : Option String) : List Json :=
  let should_clauses := [notNipsaClause]
  if truthyId user_id then should_clauses ++ [userTermClause (user_id.getD "")]
  else should_clauses

/-- The boolean filter expression nipsa_filter injects into the query. -/
def nipsaFilterClause (user_id : Option String) : Json :=
  Json.obj [("bool", Json.obj [("should", Json.arr (nipsa_should_clauses user_id))])]

/-- nipsa_filter of src/h/api/search.py (lines 32-80): returns a
NIPSA-filtered copy of the given query dict; none models the KeyError
raised when the query key is absent. -/
def nipsa_filter (query : Dict) (user_id : Option String := none) : Option Dict :=
  match getVal? query "query" with
  | none => none
  | some inner =>
      some (setKey query "query"
        (Json.obj [("filtered", Json.obj
          [("filter", nipsaFilterClause user_id), ("query", inner)])]))

/-- build_query of src/h/api/search.py (lines 83-151): translates the
request parameters into a paginated, sorted, filtered query dict.  The
final nipsa_filter call cannot raise because the query key was just
assigned, so its result is unwrapped with an unreachable empty default. -/
def build_query (request_params : Params) (user_id : Option String := none) : Dict :=
  let popped := popParam request_params "offset"
  let from_ : Int :=
    match popped.1 with
    | none => 0
    | some s =>
        match pyInt? s with
        | none => 0
        | some n => if n < 0 then 0 else n
  let request_params := popped.2
  let popped := popParam request_params "limit"
  let size : Int :=
    match popped.1 with
    | none => 20
    | some s =>
        match pyInt? s with
        | none => 20
        | some n => if n < 0 then 20 else n
  let request_params := popped.2
  let popped := popParam request_params "sort"
  let sortField := popped.1.getD "updated"
  let request_params := popped.2
  let popped := popParam request_params "order"
  let order := popped.1.getD "desc"
  let request_params := popped.2
  let query : Dict :=
    [("from", Json.num from_),
     ("size", Json.num size),
     ("sort", Json.arr [Json.obj [(sortField,
        Json.obj [("ignore_unmapped", Json.bool true),
                  ("order", Json.str order)])]])]
  let anyMatches : List Json :=
    if containsParam request_params "any" then
      [Json.obj [("multi_match", Json.obj
        [("fields", Json.arr (["quote", "tags", "text", "uri.parts", "user"].map Json.str)),
         ("query", Json.arr ((getAllParams request_params "any").map Json.str)),
         ("type", Json.str "cross_fields")])]]
    else []
  let request_params :=
    if containsParam request_params "any" then (popParam request_params "any").2
    else request_params
  let matchClauses := anyMatches ++
    request_params.map (fun p => Json.obj [("match", Json.obj [(p.1, Json.str p.2)])])
  let matchClauses := if matchClauses.isEmpty then [Json.obj [("match_all", Json.obj [])]] else matchClauses
  let query := setKey query "query" (Json.obj [("bool", Json.obj [("must", Json.arr matchClauses)])])
  (nipsa_filter query user_id).getD []

mutual

/-- Modelled from the spec: the admission semantics of the external
full-text index for the clause shapes this code emits.  A term clause
admits a record whose field holds exactly the given value, a not clause
negates, a bool-should list admits when any member does, a bool-must list
when every member does, and match_all admits everything; clause shapes
outside this fragment are treated as not admitting. -/
def evalClause : Json → Dict → Bool
  | .obj [("not", f)], r => !(evalClause f r)
  | .obj [("term", .obj [(field, v)])], r => decide (getVal? r field = some v)
  | .obj [("bool", .obj [("should", .arr cs)])], r => evalAnyClause cs r
  | .obj [("bool", .obj [("must", .arr cs)])], r => evalAllClauses cs r
  | .obj [("match_all", .obj [])], _ => true
  | _, _ => false

/-- Does any clause of the list admit the record? -/
def evalAnyClause : List Json → Dict → Bool
  | [], _ => false
  | c :: cs, r => evalClause c r || evalAnyClause cs r

/-- Does every clause of the list admit the record? -/
def evalAllClauses : List Json → Dict → Bool
  | [], _ => true
  | c :: cs, r => evalClause c r && evalAllClauses cs r

end

/-- The pagination value build_query derives from an optional parameter
string: the default when the value is absent, unparsable or negative, and
the parsed integer otherwise. -/
def pageVal : Option String → Int → Int
  | none, d => d
  | some s, d =>
      match pyInt? s with
      | none => d
      | some n => if n < 0 then d else n

/-- A parameter set whose offset value is absent, unparsable or negative
(the conditions under which build_query falls back to from equal to 0). -/
def badOffset (ps : Params) : Bool :=
  match lastVal? ps "offset" with
  | none => true
  | some s =>
      match pyInt? s with
      | none => true
      | some n => decide (n < 0)

/-- A parameter set whose limit value is absent, unparsable or negative
(the conditions under which build_query falls back to size equal to 20). -/
def badLimit (ps : Params) : Bool :=
  match lastVal? ps "limit" with
  | none => true
  | some s =>
      match pyInt? s with
      | none => true
      | some n => decide (n < 0)

section DictLemmas

theorem getVal?_setKey_self (d : Dict) (k : String) (v : Json) :
    getVal? (setKey d k v) k = some v := by
  induction d with
  | nil => simp [setKey, getVal?]
  | cons p rest ih =>
      by_cases h : p.1 = k
      · simp [setKey, h, getVal?]
      · simp [setKey, h, getVal?, ih]

theorem getVal?_setKey_ne (d : Dict) (k k' : String) (v : Json) (h : k' ≠ k) :
    getVal? (setKey d k v) k' = getVal? d k' := by
  have h2 : ¬(k = k') := fun hk => h hk.symm
  induction d with
  | nil => simp [setKey, getVal?, h2]
  | cons p rest ih =>
      by_cases hp : p.1 = k
      · subst hp
        simp only [setKey, if_pos rfl]
        simp [getVal?, h2]
      · simp only [setKey, if_neg hp]
        by_cases hp' : p.1 = k'
        · subst hp'
          simp [getVal?]
        · simp [getVal?, hp', ih]

theorem setKey_of_getVal? (d : Dict) (k : String) (v : Json)
    (h : getVal? d k = some v) : setKey d k v = d := by
  induction d with
  | nil => simp [getVal?] at h
  | cons p rest ih =>
      obtain ⟨k1, v1⟩ := p
      by_cases hp : k1 = k
      · subst hp
        have hv : v = v1 := by
          simp [getVal?] at h
          exact h.symm
        subst hv
        simp [setKey]
      · simp only [getVal?] at h
        rw [if_neg hp] at h
        simp [setKey, hp, ih h]

theorem getVal?_eraseKey_self (d : Dict) (k : String) :
    getVal? (eraseKey d k) k = none := by
  induction d with
  | nil => simp [eraseKey, getVal?]
  | cons p rest ih =>
      by_cases hp : p.1 = k
      · simp [eraseKey, hp, ih]
      · simp [eraseKey, hp, getVal?, ih]

theorem getVal?_eraseKey_ne (d : Dict) (k k' : String) (h : k' ≠ k) :
    getVal? (eraseKey d k) k' = getVal? d k' := by
  induction d with
  | nil => simp [eraseKey]
  | cons p rest ih =>
      by_cases hp : p.1 = k
      · have hp' : ¬(p.1 = k') := by rw [hp]; exact fun hk => h hk.symm
        simp only [eraseKey, if_pos hp]
        simp [getVal?, hp', ih]
      · simp only [eraseKey, if_neg hp]
        by_cases hp' : p.1 = k'
        · subst hp'
          simp [getVal?, ih]
        · simp [getVal?, hp', ih]

end DictLemmas

section StripLemmas

theorem eraseKey_eq_filter (d : Dict) (k : String) :
    eraseKey d k = d.filter (fun p => !(p.1 == k)) := by
  induction d with
  | nil => simp [eraseKey]
  | cons p rest ih =>
      by_cases hp : p.1 = k
      · simp [eraseKey, hp, List.filter, ih]
      · have hb : (p.1 == k) = false := by simpa using hp
        simp [eraseKey, hp, List.filter, hb, ih]

theorem foldl_eraseKey_eq_filter (ks : List String) (f : Dict) :
    List.foldl (fun d k => eraseKey d k) f ks =
      f.filter (fun p => !(ks.contains p.1)) := by
  induction ks generalizing f with
  | nil => simp
  | cons k ks ih =>
      simp only [List.foldl]
      rw [ih (eraseKey f k), eraseKey_eq_filter, List.filter_filter]
      apply List.filter_congr
      intro p _
      cases hk : p.1 == k <;> cases hc : ks.contains p.1 <;>
        simp_all [List.contains_cons, List.elem_iff]

theorem stripProtected_eq_filter (f : Dict) :
    stripProtected f = f.filter (fun p => !(PROTECTED_FIELDS.contains p.1)) := by
  rw [stripProtected, foldl_eraseKey_eq_filter]

theorem stripProtected_idem (f : Dict) :
    stripProtected (stripProtected f) = stripProtected f := by
  rw [stripProtected_eq_filter, stripProtected_eq_filter, List.filter_filter]
  apply List.filter_congr
  intro p _
  cases h : PROTECTED_FIELDS.contains p.1 <;> simp [h]

theorem getVal?_filterKey (f : Dict) (q : String → Bool) (k : String) :
    getVal? (f.filter (fun p => q p.1)) k = if q k then getVal? f k else none := by
  induction f with
  | nil => cases hq : q k <;> simp [getVal?, hq]
  | cons p rest ih =>
      by_cases hk : p.1 = k
      · subst hk
        cases hq : q p.1 <;> simp [List.filter, getVal?, hq, ih]
      · cases hq : q p.1 <;> simp [List.filter, getVal?, hq, hk, ih]

theorem getVal?_stripProtected (f : Dict) (k : String) :
    getVal? (stripProtected f) k =
      if PROTECTED_FIELDS.contains k then none else getVal? f k := by
  rw [stripProtected_eq_filter,
    getVal?_filterKey f (fun s => !(PROTECTED_FIELDS.contains s)) k]
  cases h : PROTECTED_FIELDS.contains k <;> simp [h]

end StripLemmas

section AnonLemmas

theorem anonActions_eq_ok (perms : List (String × Json)) (user : Json)
    (h : allArr perms = true) :
    anonActions perms user = .ok (filterPerms perms user) := by
  induction perms with
  | nil => simp [anonActions, filterPerms]
  | cons p rest ih =>
      obtain ⟨a, v⟩ := p
      cases v with
      | arr l =>
          simp only [allArr] at h
          simp [anonActions, filterPerms, ih h]
      | null => simp [allArr] at h
      | str s => simp [allArr] at h
      | bool b => simp [allArr] at h
      | num n => simp [allArr] at h
      | obj o => simp [allArr] at h

theorem allArr_filterPerms (perms : List (String × Json)) (user : Json)
    (h : allArr perms = true) : allArr (filterPerms perms user) = true := by
  induction perms with
  | nil => simp [filterPerms, allArr]
  | cons p rest ih =>
      obtain ⟨a, v⟩ := p
      cases v with
      | arr l =>
          simp only [allArr] at h
          simp [filterPerms, allArr, ih h]
      | null => simp [allArr] at h
      | str s => simp [allArr] at h
      | bool b => simp [allArr] at h
      | num n => simp [allArr] at h
      | obj o => simp [allArr] at h

theorem allArr_of_noEmptyRoles (perms : List (String × Json))
    (h : noEmptyRoles perms = true) : allArr perms = true := by
  induction perms with
  | nil => simp [allArr]
  | cons p rest ih =>
      obtain ⟨a, v⟩ := p
      cases v with
      | arr l =>
          simp only [noEmptyRoles, Bool.and_eq_true] at h
          simp [allArr, ih h.2]
      | null => simp [noEmptyRoles] at h
      | str s => simp [noEmptyRoles] at h
      | bool b => simp [noEmptyRoles] at h
      | num n => simp [noEmptyRoles] at h
      | obj o => simp [noEmptyRoles] at h

theorem noEmptyRoles_filterPerms (perms : List (String × Json)) (user : Json)
    (h : noEmptyRoles perms = true) :
    noEmptyRoles (filterPerms perms user) = true := by
  induction perms with
  | nil => simp [filterPerms, noEmptyRoles]
  | cons p rest ih =>
      obtain ⟨a, v⟩ := p
      cases v with
      | arr l =>
          simp only [noEmptyRoles, Bool.and_eq_true] at h
          have hall : ((l.filter (fun role => !(pyEq role user))).all
              (fun role => !(pyEq role (Json.str "")))) = true := by
            rw [List.all_eq_true] at *
            intro r hr
            exact h.1 r (List.mem_of_mem_filter hr)
          simp [filterPerms, noEmptyRoles, hall, ih h.2]
      | null => simp [noEmptyRoles] at h
      | str s => simp [noEmptyRoles] at h
      | bool b => simp [noEmptyRoles] at h
      | num n => simp [noEmptyRoles] at h
      | obj o => simp [noEmptyRoles] at h

theorem filterPerms_emptyUser (perms : List (String × Json))
    (h : noEmptyRoles perms = true) :
    filterPerms perms (Json.str "") = perms := by
  induction perms with
  | nil => simp [filterPerms]
  | cons p rest ih =>
      obtain ⟨a, v⟩ := p
      cases v with
      | arr l =>
          simp only [noEmptyRoles, Bool.and_eq_true] at h
          have hl : l.filter (fun role => !(pyEq role (Json.str ""))) = l := by
            apply List.filter_eq_self.mpr
            intro r hr
            exact (List.all_eq_true.mp h.1) r hr
          simp [filterPerms, hl, ih h.2]
      | null => simp [noEmptyRoles] at h
      | str s => simp [noEmptyRoles] at h
      | bool b => simp [noEmptyRoles] at h
      | num n => simp [noEmptyRoles] at h
      | obj o => simp [noEmptyRoles] at h

theorem filterPerms_idem (perms : List (String × Json)) (user : Json) :
    filterPerms (filterPerms perms user) user = filterPerms perms user := by
  induction perms with
  | nil => simp [filterPerms]
  | cons p rest ih =>
      obtain ⟨a, v⟩ := p
      cases v with
      | arr l =>
          have hl : (l.filter (fun role => !(pyEq role user))).filter
              (fun role => !(pyEq role user)) =
              l.filter (fun role => !(pyEq role user)) := by
            apply List.filter_eq_self.mpr
            intro r hr
            exact (List.mem_filter.mp hr).2
          simp [filterPerms, hl, ih]
      | null => simp [filterPerms, ih]
      | str s => simp [filterPerms, ih]
      | bool b => simp [filterPerms, ih]
      | num n => simp [filterPerms, ih]
      | obj o => simp [filterPerms, ih]

end AnonLemmas

section ParamLemmas

theorem filterMap_filter_ne (ps : Params) (k k' : String) (h : k' ≠ k) :
    (ps.filter (fun p => p.1 ≠ k)).filterMap
        (fun p => if p.1 == k' then some p.2 else none) =
      ps.filterMap (fun p => if p.1 == k' then some p.2 else none) := by
  induction ps with
  | nil => rfl
  | cons p rest ih =>
      by_cases hp : p.1 = k
      · have hpk : ¬(k = k') := fun hk => h hk.symm
        simp [List.filter_cons, hp, List.filterMap_cons, hpk]
        simpa using ih
      · simp only [List.filter_cons]
        rw [if_pos (by simpa using hp)]
        by_cases hpk : p.1 = k'
        · simp [List.filterMap_cons, hpk]
          simpa using ih
        · simp [List.filterMap_cons, hpk]
          simpa using ih

theorem lastVal?_filter_ne (ps : Params) (k k' : String) (h : k' ≠ k) :
    lastVal? (ps.filter (fun p => p.1 ≠ k)) k' = lastVal? ps k' := by
  unfold lastVal?
  rw [filterMap_filter_ne ps k k' h]

theorem param_filter_cons_out (l : Params) (p : String × String) (k : String)
    (h : p.1 = k) :
    (p :: l).filter (fun q => q.1 ≠ k) = l.filter (fun q => q.1 ≠ k) := by
  simp [List.filter_cons, h]

theorem param_filter_cons_keep (l : Params) (p : String × String) (k : String)
    (h : p.1 ≠ k) :
    (p :: l).filter (fun q => q.1 ≠ k) = p :: l.filter (fun q => q.1 ≠ k) := by
  simp [List.filter_cons, h]

theorem filter_chain_nil (ps : Params)
    (h : ∀ p ∈ ps, p.1 = "offset" ∨ p.1 = "limit" ∨ p.1 = "sort" ∨ p.1 = "order") :
    (((ps.filter (fun p => p.1 ≠ "offset")).filter
        (fun p => p.1 ≠ "limit")).filter
        (fun p => p.1 ≠ "sort")).filter (fun p => p.1 ≠ "order") = [] := by
  induction ps with
  | nil => rfl
  | cons p rest ih =>
      have hrest := ih (fun q hq => h q (List.mem_cons_of_mem _ hq))
      rcases h p (List.mem_cons_self _ _) with h1 | h1 | h1 | h1
      · rw [param_filter_cons_out _ _ _ h1]
        exact hrest
      · rw [param_filter_cons_keep _ _ _ (by rw [h1]; decide),
          param_filter_cons_out _ _ _ h1]
        exact hrest
      · rw [param_filter_cons_keep _ _ _ (by rw [h1]; decide),
          param_filter_cons_keep _ _ _ (by rw [h1]; decide),
          param_filter_cons_out _ _ _ h1]
        exact hrest
      · rw [param_filter_cons_keep _ _ _ (by rw [h1]; decide),
          param_filter_cons_keep _ _ _ (by rw [h1]; decide),
          param_filter_cons_keep _ _ _ (by rw [h1]; decide),
          param_filter_cons_out _ _ _ h1]
        exact hrest

end ParamLemmas

section Claims

/-- C1, counterexample: an author who is not on the suppression list
creates an annotation whose payload itself sets not_in_public_site_areas,
and the stored record keeps that client value, refuting the
if-and-only-if and the statement that a client-supplied value never
determines the stored flag (the flag is not among PROTECTED_FIELDS, and
the third conjunct shows the stored value tracks the payload). -/
theorem claim_C1_counterexample :
    user_read [] "acct:mallory" = false ∧
    getVal? (_create_annot [] [("not_in_public_site_areas", Json.bool true)]
      "acct:mallory" "key").2 "not_in_public_site_areas" = some (Json.bool true) ∧
    getVal? (_create_annot [] [] "acct:mallory" "key").2
      "not_in_public_site_areas" = none := by
  decide

/-- C1, amended: at creation the stored not_in_public_site_areas flag is
true whenever the author is on the suppression list, and otherwise it is
exactly the client-supplied value (absent when the payload carries none):
the flag is forced only for suppressed authors and is client-settable for
everyone else. -/
theorem claim_C1 (nipsa_list : List String) (fields : Dict)
    (user_id consumer_key : String) :
    getVal? (_create_annot nipsa_list fields user_id consumer_key).2
        "not_in_public_site_areas" =
      if user_read nipsa_list user_id then some (Json.bool true)
      else getVal? fields "not_in_public_site_areas" := by
  cases h : user_read nipsa_list user_id with
  | true =>
      simp only [_create_annot, _nipsa, h, if_true]
      rw [getVal?_setKey_self]
  | false =>
      simp only [_create_annot, _nipsa, h, Bool.false_eq_true, if_false]
      rw [getVal?_setKey_ne _ _ _ _ (by decide), getVal?_setKey_ne _ _ _ _ (by decide),
        getVal?_stripProtected, if_neg (by decide)]

/-- C2: an update whose payload carries a permissions value that differs,
under Python equality, from the stored permissions is rejected with the
401 unauthorized api error when the caller lacks the admin capability;
the annotation is left exactly as it was and no event is published. -/
theorem claim_C2 (annot fields : Dict) (p : Json)
    (hp : getVal? fields "permissions" = some p)
    (hne : pyEq p ((getVal? annot "permissions").getD (Json.obj [])) = false) :
    update_view annot fields false =
      { response := ViewResult.apiError
          "Not authorized to change annotation permissions." 401,
        annot := annot, events := [] } := by
  have hs : getVal? (stripProtected fields) "permissions" = some p := by
    rw [getVal?_stripProtected, if_neg (by decide)]
    exact hp
  have hch : changing_permissions annot (stripProtected fields) = true := by
    simp [changing_permissions, containsKey, hs, hne]
  simp [update_view, _update_annot, hch]

/-- C2, witness at a concrete update: payload permissions differ from the
stored ones and the caller is not an admin. -/
theorem claim_C2_witness :
    update_view [("permissions", Json.obj [("read", Json.arr [Json.str "a"])])]
        [("permissions", Json.obj [("read", Json.arr [Json.str "b"])])] false =
      { response := ViewResult.apiError
          "Not authorized to change annotation permissions." 401,
        annot := [("permissions", Json.obj [("read", Json.arr [Json.str "a"])])],
        events := [] } :=
  claim_C2 _ _ (Json.obj [("read", Json.arr [Json.str "b"])]) (by decide) (by decide)

/-- C5: client-supplied protected fields never reach the stored record:
on create the record carries no id, created or updated key and its user
and consumer are forced to the author identity and consumer key whatever
the payload said; on update the outcome is identical whether or not the
payload carried protected fields, because they are popped before any
merge. -/
theorem claim_C5 (nipsa_list : List String) (fields annot : Dict)
    (user_id consumer_key : String) (has_admin : Bool) :
    getVal? (_create_annot nipsa_list fields user_id consumer_key).2 "id" = none ∧
    getVal? (_create_annot nipsa_list fields user_id consumer_key).2 "created" = none ∧
    getVal? (_create_annot nipsa_list fields user_id consumer_key).2 "updated" = none ∧
    getVal? (_create_annot nipsa_list fields user_id consumer_key).2 "user" =
      some (Json.str user_id) ∧
    getVal? (_create_annot nipsa_list fields user_id consumer_key).2 "consumer" =
      some (Json.str consumer_key) ∧
    _update_annot annot fields has_admin =
      _update_annot annot (stripProtected fields) has_admin := by
  refine ⟨?_, ?_, ?_, ?_, ?_, ?_⟩
  · cases h : user_read nipsa_list user_id with
    | true =>
        simp only [_create_annot, _nipsa, h, if_true]
        rw [getVal?_setKey_ne _ _ _ _ (by decide), getVal?_setKey_ne _ _ _ _ (by decide),
          getVal?_setKey_ne _ _ _ _ (by decide), getVal?_stripProtected, if_pos (by decide)]
    | false =>
        simp only [_create_annot, _nipsa, h, Bool.false_eq_true, if_false]
        rw [getVal?_setKey_ne _ _ _ _ (by decide), getVal?_setKey_ne _ _ _ _ (by decide),
          getVal?_stripProtected, if_pos (by decide)]
  · cases h : user_read nipsa_list user_id with
    | true =>
        simp only [_create_annot, _nipsa, h, if_true]
        rw [getVal?_setKey_ne _ _ _ _ (by decide), getVal?_setKey_ne _ _ _ _ (by decide),
          getVal?_setKey_ne _ _ _ _ (by decide), getVal?_stripProtected, if_pos (by decide)]
    | false =>
        simp only [_create_annot, _nipsa, h, Bool.false_eq_true, if_false]
        rw [getVal?_setKey_ne _ _ _ _ (by decide), getVal?_setKey_ne _ _ _ _ (by decide),
          getVal?_stripProtected, if_pos (by decide)]
  · cases h : user_read nipsa_list user_id with
    | true =>
        simp only [_create_annot, _nipsa, h, if_true]
        rw [getVal?_setKey_ne _ _ _ _ (by decide), getVal?_setKey_ne _ _ _ _ (by decide),
          getVal?_setKey_ne _ _ _ _ (by decide), getVal?_stripProtected, if_pos (by decide)]
    | false =>
        simp only [_create_annot, _nipsa, h, Bool.false_eq_true, if_false]
        rw [getVal?_setKey_ne _ _ _ _ (by decide), getVal?_setKey_ne _ _ _ _ (by decide),
          getVal?_stripProtected, if_pos (by decide)]
  · cases h : user_read nipsa_list user_id with
    | true =>
        simp only [_create_annot, _nipsa, h, if_true]
        rw [getVal?_setKey_ne _ _ _ _ (by decide), getVal?_setKey_ne _ _ _ _ (by decide),
          getVal?_setKey_self]
    | false =>
        simp only [_create_annot, _nipsa, h, Bool.false_eq_true, if_false]
        rw [getVal?_setKey_ne _ _ _ _ (by decide), getVal?_setKey_self]
  · cases h : user_read nipsa_list user_id with
    | true =>
        simp only [_create_annot, _nipsa, h, if_true]
        rw [getVal?_setKey_ne _ _ _ _ (by decide), getVal?_setKey_self]
    | false =>
        simp only [_create_annot, _nipsa, h, Bool.false_eq_true, if_false]
        rw [getVal?_setKey_self]
  · simp only [_update_annot, stripProtected_idem]

/-- C9: both mutation helpers mutate the callers payload mapping in
place, leaving it equal to the protected-field-stripped dictionary, from
which every protected key is absent. -/
theorem claim_C9 (nipsa_list : List String) (fields annot : Dict)
    (user_id consumer_key : String) (has_admin : Bool) :
    (_create_annot nipsa_list fields user_id consumer_key).1 = stripProtected fields ∧
    (_update_annot annot fields has_admin).fields = stripProtected fields ∧
    containsKey (stripProtected fields) "created" = false ∧
    containsKey (stripProtected fields) "updated" = false ∧
    containsKey (stripProtected fields) "user" = false ∧
    containsKey (stripProtected fields) "consumer" = false ∧
    containsKey (stripProtected fields) "id" = false := by
  refine ⟨rfl, ?_, ?_, ?_, ?_, ?_, ?_⟩
  · simp only [_update_annot]
    split
    · rfl
    · split
      · split <;> rfl
      · rfl
  all_goals
    simp only [containsKey]
    rw [getVal?_stripProtected, if_pos (by decide)]
    rfl

/-- C10: an update whose merged record is flagged deleted but carries no
user key makes the anonymization step raise KeyError, which the update
view does not catch (it handles only RuntimeError), so no api error
response is produced and no event is published. -/
theorem claim_C10 (annot fields : Dict) (has_admin : Bool)
    (hperm : (changing_permissions annot (stripProtected fields) && !has_admin) = false)
    (huser : getVal? (updateDict annot (stripProtected fields)) "user" = none)
    (hdel : pyTruthy ((getVal? (updateDict annot (stripProtected fields))
      "deleted").getD (Json.bool false)) = true) :
    (update_view annot fields has_admin).response =
      ViewResult.uncaught (PyError.keyError "user") ∧
    (update_view annot fields has_admin).events = [] ∧
    ∀ reason code, (update_view annot fields has_admin).response ≠
      ViewResult.apiError reason code := by
  have hview : update_view annot fields has_admin =
      { response := ViewResult.uncaught (PyError.keyError "user"),
        annot := updateDict annot (stripProtected fields),
        events := [] } := by
    simp [update_view, _update_annot, hperm, hdel, _anonymize_deletes, huser]
  rw [hview]
  refine ⟨rfl, rfl, ?_⟩
  intro reason code hcontra
  cases hcontra

/-- C10, witness at a concrete update: the merged record is only the
deleted flag, so it holds no user key. -/
theorem claim_C10_witness :
    (update_view [] [("deleted", Json.bool true)] true).response =
      ViewResult.uncaught (PyError.keyError "user") ∧
    (update_view [] [("deleted", Json.bool true)] true).events = [] ∧
    ∀ reason code, (update_view [] [("deleted", Json.bool true)] true).response ≠
      ViewResult.apiError reason code :=
  claim_C10 [] [("deleted", Json.bool true)] true (by decide) (by decide) (by decide)

/-- C3, counterexample: at the spec example the views helper removes the
user key instead of setting it to the empty string, and the store helper
leaves the record untouched because no deleted flag is set; neither
yields the record with user set to the empty value that the claim
demands. -/
theorem claim_C3_counterexample :
    _anonymize_deletes
        [("user", Json.str "bob"),
         ("permissions", Json.obj [("read", Json.arr [Json.str "bob", Json.str "carol"])])] =
      .ok [("permissions", Json.obj [("read", Json.arr [Json.str "carol"])])] ∧
    _anonymize_deletes
        [("user", Json.str "bob"),
         ("permissions", Json.obj [("read", Json.arr [Json.str "bob", Json.str "carol"])])] ≠
      .ok [("user", Json.str ""),
           ("permissions", Json.obj [("read", Json.arr [Json.str "carol"])])] ∧
    anonymize_deletes
        [("user", Json.str "bob"),
         ("permissions", Json.obj [("read", Json.arr [Json.str "bob", Json.str "carol"])])] =
      .ok [("user", Json.str "bob"),
           ("permissions", Json.obj [("read", Json.arr [Json.str "bob", Json.str "carol"])])] ∧
    anonymize_deletes
        [("user", Json.str "bob"),
         ("permissions", Json.obj [("read", Json.arr [Json.str "bob", Json.str "carol"])])] ≠
      .ok [("user", Json.str ""),
           ("permissions", Json.obj [("read", Json.arr [Json.str "carol"])])] := by
  decide

/-- C3, amended: for an annotation with a user key and a permissions
dictionary all of whose action values are lists, the views helper removes
the user key entirely (rather than storing an empty value), and for every
action key it keeps exactly the roles that are not Python-equal to the
captured author while leaving every other field untouched; the store
variant acts only when the record is flagged deleted. -/
theorem claim_C3 (a : Dict) (u : Json) (perms : List (String × Json))
    (hu : getVal? a "user" = some u)
    (hp : getVal? a "permissions" = some (Json.obj perms))
    (hshape : allArr perms = true) :
    _anonymize_deletes a =
      .ok (setKey (eraseKey a "user") "permissions" (Json.obj (filterPerms perms u))) ∧
    getVal? (setKey (eraseKey a "user") "permissions"
      (Json.obj (filterPerms perms u))) "user" = none ∧
    getVal? (setKey (eraseKey a "user") "permissions"
      (Json.obj (filterPerms perms u))) "permissions" =
      some (Json.obj (filterPerms perms u)) ∧
    ∀ k, k ≠ "user" → k ≠ "permissions" →
      getVal? (setKey (eraseKey a "user") "permissions"
        (Json.obj (filterPerms perms u))) k = getVal? a k := by
  have hp' : getVal? (eraseKey a "user") "permissions" = some (Json.obj perms) := by
    rw [getVal?_eraseKey_ne _ _ _ (by decide)]
    exact hp
  refine ⟨?_, ?_, ?_, ?_⟩
  · simp [_anonymize_deletes, hu, hp', anonActions_eq_ok perms u hshape]
  · rw [getVal?_setKey_ne _ _ _ _ (by decide), getVal?_eraseKey_self]
  · exact getVal?_setKey_self _ _ _
  · intro k hk1 hk2
    rw [getVal?_setKey_ne _ _ _ _ hk2, getVal?_eraseKey_ne _ _ _ hk1]

/-- C3, witness at the spec example extended with a text field: the user
key is gone, the author is dropped from the read list, and the text field
survives. -/
theorem claim_C3_witness :
    _anonymize_deletes
        [("user", Json.str "bob"), ("text", Json.str "hi"),
         ("permissions", Json.obj [("read", Json.arr [Json.str "bob", Json.str "carol"])])] =
      .ok (setKey (eraseKey
        [("user", Json.str "bob"), ("text", Json.str "hi"),
         ("permissions", Json.obj [("read", Json.arr [Json.str "bob", Json.str "carol"])])]
        "user") "permissions"
        (Json.obj (filterPerms [("read", Json.arr [Json.str "bob", Json.str "carol"])]
          (Json.str "bob")))) ∧
    getVal? (setKey (eraseKey
        [("user", Json.str "bob"), ("text", Json.str "hi"),
         ("permissions", Json.obj [("read", Json.arr [Json.str "bob", Json.str "carol"])])]
        "user") "permissions"
        (Json.obj (filterPerms [("read", Json.arr [Json.str "bob", Json.str "carol"])]
          (Json.str "bob")))) "user" = none ∧
    getVal? (setKey (eraseKey
        [("user", Json.str "bob"), ("text", Json.str "hi"),
         ("permissions", Json.obj [("read", Json.arr [Json.str "bob", Json.str "carol"])])]
        "user") "permissions"
        (Json.obj (filterPerms [("read", Json.arr [Json.str "bob", Json.str "carol"])]
          (Json.str "bob")))) "text" = some (Json.str "hi") := by
  have h := claim_C3
    [("user", Json.str "bob"), ("text", Json.str "hi"),
     ("permissions", Json.obj [("read", Json.arr [Json.str "bob", Json.str "carol"])])]
    (Json.str "bob") [("read", Json.arr [Json.str "bob", Json.str "carol"])]
    (by decide) (by decide) (by decide)
  exact ⟨h.1, h.2.1, h.2.2.2 "text" (by decide) (by decide)⟩

/-- C4, counterexample: the views helper is not idempotent, since the
first application removes the user key and a second application then
raises KeyError; applying it to an already-anonymized record with an
empty user is not a no-op either, because the user key is removed. -/
theorem claim_C4_counterexample :
    pyBind (_anonymize_deletes
        [("user", Json.str "bob"),
         ("permissions", Json.obj [("read", Json.arr [Json.str "bob", Json.str "carol"])])])
      _anonymize_deletes ≠
      _anonymize_deletes
        [("user", Json.str "bob"),
         ("permissions", Json.obj [("read", Json.arr [Json.str "bob", Json.str "carol"])])] ∧
    pyBind (_anonymize_deletes
        [("user", Json.str "bob"),
         ("permissions", Json.obj [("read", Json.arr [Json.str "bob", Json.str "carol"])])])
      _anonymize_deletes = .exn (PyError.keyError "user") ∧
    _anonymize_deletes [("user", Json.str "")] ≠ .ok [("user", Json.str "")] ∧
    _anonymize_deletes [("user", Json.str "")] = .ok [] := by
  decide

/-- C4, amended: the store anonymize_deletes hook is idempotent on
records whose permissions dictionary maps every action to a list free of
empty-string roles, and on such records with an empty user value it is a
no-op; the views variant is not idempotent because it removes the user
key outright. -/
theorem claim_C4 (a : Dict) (perms : List (String × Json))
    (hp : getVal? a "permissions" = some (Json.obj perms))
    (hr : noEmptyRoles perms = true) :
    pyBind (anonymize_deletes a) anonymize_deletes = anonymize_deletes a ∧
    (getVal? a "user" = some (Json.str "") → anonymize_deletes a = .ok a) := by
  have hall : allArr perms = true := allArr_of_noEmptyRoles perms hr
  cases hdel : pyTruthy ((getVal? a "deleted").getD (Json.bool false)) with
  | false =>
      have hnoop : anonymize_deletes a = .ok a := by
        simp [anonymize_deletes, hdel]
      rw [hnoop]
      exact ⟨by simp [pyBind, hnoop], fun _ => rfl⟩
  | true =>
      cases hu : pyTruthy ((getVal? a "user").getD (Json.str "")) with
      | true =>
          set u0 := (getVal? a "user").getD (Json.str "") with hu0
          have h1 : getVal? (setKey a "user" (Json.str "")) "permissions" =
              some (Json.obj perms) := by
            rw [getVal?_setKey_ne _ _ _ _ (by decide)]
            exact hp
          have hstep : anonymize_deletes a =
              .ok (setKey (setKey a "user" (Json.str "")) "permissions"
                (Json.obj (filterPerms perms u0))) := by
            simp [anonymize_deletes, hdel, hu, h1, anonActions_eq_ok perms u0 hall]
          have ha1del : getVal? (setKey (setKey a "user" (Json.str "")) "permissions"
              (Json.obj (filterPerms perms u0))) "deleted" = getVal? a "deleted" := by
            rw [getVal?_setKey_ne _ _ _ _ (by decide), getVal?_setKey_ne _ _ _ _ (by decide)]
          have ha1user : getVal? (setKey (setKey a "user" (Json.str "")) "permissions"
              (Json.obj (filterPerms perms u0))) "user" = some (Json.str "") := by
            rw [getVal?_setKey_ne _ _ _ _ (by decide), getVal?_setKey_self]
          have ha1perm : getVal? (setKey (setKey a "user" (Json.str "")) "permissions"
              (Json.obj (filterPerms perms u0))) "permissions" =
              some (Json.obj (filterPerms perms u0)) := getVal?_setKey_self _ _ _
          have hfe : filterPerms (filterPerms perms u0) (Json.str "") =
              filterPerms perms u0 :=
            filterPerms_emptyUser _ (noEmptyRoles_filterPerms perms u0 hr)
          have hstep2 : anonymize_deletes (setKey (setKey a "user" (Json.str ""))
              "permissions" (Json.obj (filterPerms perms u0))) =
              .ok (setKey (setKey a "user" (Json.str "")) "permissions"
                (Json.obj (filterPerms perms u0))) := by
            simp only [anonymize_deletes, ha1del, hdel, if_true, ha1user, Option.getD_some,
              show pyTruthy (Json.str "") = false from rfl, Bool.false_eq_true, if_false,
              ha1perm, anonActions_eq_ok _ _ (allArr_filterPerms perms u0 hall), hfe]
            rw [setKey_of_getVal? _ _ _ ha1perm]
          refine ⟨?_, ?_⟩
          · rw [hstep]
            simp only [pyBind]
            rw [hstep2]
          · intro hus
            rw [hu0, hus] at hu
            simp [pyTruthy] at hu
      | false =>
          set u0 := (getVal? a "user").getD (Json.str "") with hu0
          have hstep : anonymize_deletes a =
              .ok (setKey a "permissions" (Json.obj (filterPerms perms u0))) := by
            simp [anonymize_deletes, hdel, hu, hp, anonActions_eq_ok perms u0 hall]
          have ha1del : getVal? (setKey a "permissions"
              (Json.obj (filterPerms perms u0))) "deleted" = getVal? a "deleted" := by
            rw [getVal?_setKey_ne _ _ _ _ (by decide)]
          have ha1user : getVal? (setKey a "permissions"
              (Json.obj (filterPerms perms u0))) "user" = getVal? a "user" := by
            rw [getVal?_setKey_ne _ _ _ _ (by decide)]
          have ha1perm : getVal? (setKey a "permissions"
              (Json.obj (filterPerms perms u0))) "permissions" =
              some (Json.obj (filterPerms perms u0)) := getVal?_setKey_self _ _ _
          have hstep2 : anonymize_deletes (setKey a "permissions"
              (Json.obj (filterPerms perms u0))) =
              .ok (setKey a "permissions" (Json.obj (filterPerms perms u0))) := by
            simp only [anonymize_deletes, ha1del, hdel, if_true, ha1user, ← hu0, hu,
              Bool.false_eq_true, if_false, ha1perm,
              anonActions_eq_ok _ _ (allArr_filterPerms perms u0 hall), filterPerms_idem]
            rw [setKey_of_getVal? _ _ _ ha1perm]
          refine ⟨?_, ?_⟩
          · rw [hstep]
            simp only [pyBind]
            rw [hstep2]
          · intro hus
            have hue : u0 = Json.str "" := by rw [hu0, hus]; rfl
            rw [hstep, hue, filterPerms_emptyUser perms hr,
              setKey_of_getVal? _ _ _ hp]

/-- C4, witness: idempotence of the store hook at a concrete deleted
record with a nonempty author, and the no-op at a concrete
already-anonymized record. -/
theorem claim_C4_witness :
    pyBind (anonymize_deletes
        [("deleted", Json.bool true), ("user", Json.str "bob"),
         ("permissions", Json.obj [("read", Json.arr [Json.str "bob", Json.str "carol"])])])
      anonymize_deletes =
      anonymize_deletes
        [("deleted", Json.bool true), ("user", Json.str "bob"),
         ("permissions", Json.obj [("read", Json.arr [Json.str "bob", Json.str "carol"])])] ∧
    anonymize_deletes
        [("deleted", Json.bool true), ("user", Json.str ""),
         ("permissions", Json.obj [("read", Json.arr [Json.str "carol"])])] =
      .ok [("deleted", Json.bool true), ("user", Json.str ""),
           ("permissions", Json.obj [("read", Json.arr [Json.str "carol"])])] :=
  ⟨(claim_C4
      [("deleted", Json.bool true), ("user", Json.str "bob"),
       ("permissions", Json.obj [("read", Json.arr [Json.str "bob", Json.str "carol"])])]
      [("read", Json.arr [Json.str "bob", Json.str "carol"])]
      (by decide) (by decide)).1,
   (claim_C4
      [("deleted", Json.bool true), ("user", Json.str ""),
       ("permissions", Json.obj [("read", Json.arr [Json.str "carol"])])]
      [("read", Json.arr [Json.str "carol"])]
      (by decide) (by decide)).2 (by decide)⟩

/-- C6: nipsa_filter wraps any query in the visibility filter, and that
filter admits exactly the records whose suppression flag is not the true
value, plus, when the viewer id is truthy, the records whose user field
equals the viewer id; with an absent or empty viewer id the should list
holds only the non-suppressed clause.  The second equation shows every
non-suppressed record and every record of the viewer is admitted while a
suppressed record of anyone else is excluded. -/
theorem claim_C6 (query : Dict) (user_id : Option String) (record : Dict) :
    nipsa_filter query user_id =
      Option.map (fun inner => setKey query "query"
        (Json.obj [("filtered", Json.obj
          [("filter", nipsaFilterClause user_id), ("query", inner)])]))
        (getVal? query "query") ∧
    evalClause (nipsaFilterClause user_id) record =
      (!(decide (getVal? record "not_in_public_site_areas" = some (Json.bool true))) ||
        (truthyId user_id &&
          decide (getVal? record "user" = some (Json.str (user_id.getD ""))))) ∧
    nipsa_should_clauses user_id =
      (if truthyId user_id then [notNipsaClause, userTermClause (user_id.getD "")]
       else [notNipsaClause]) := by
  refine ⟨?_, ?_, ?_⟩
  · cases h : getVal? query "query" <;> simp [nipsa_filter, h]
  · cases ht : truthyId user_id <;>
      simp [nipsaFilterClause, nipsa_should_clauses, ht, evalClause, evalAnyClause,
        notNipsaClause, userTermClause]
  · cases ht : truthyId user_id <;> simp [nipsa_should_clauses, ht]

set_option maxHeartbeats 1000000 in
theorem build_query_from_size (ps : Params) (user_id : Option String) :
    getVal? (build_query ps user_id) "from" =
      some (Json.num (pageVal (lastVal? ps "offset") 0)) ∧
    getVal? (build_query ps user_id) "size" =
      some (Json.num (pageVal
        (lastVal? (ps.filter (fun p => p.1 ≠ "offset")) "limit") 20)) := by
  constructor
  · simp only [build_query, popParam]
    cases ho : lastVal? ps "offset" with
    | none => rfl
    | some s =>
        dsimp only
        cases hi : pyInt? s with
        | none =>
            simp only [pageVal, hi]
            rfl
        | some n =>
            simp only [pageVal, hi]
            rfl
  · simp only [build_query, popParam]
    cases ho : lastVal? (ps.filter (fun p => p.1 ≠ "offset")) "limit" with
    | none => rfl
    | some s =>
        dsimp only
        cases hi : pyInt? s with
        | none =>
            simp only [pageVal, hi]
            rfl
        | some n =>
            simp only [pageVal, hi]
            rfl

/-- C7: a parameter set whose offset is absent, unparsable or negative
yields a query with from equal to 0, and one whose limit is absent,
unparsable or negative yields size equal to 20, instead of failing. -/
theorem claim_C7 (ps : Params) (user_id : Option String) :
    (badOffset ps = true →
      getVal? (build_query ps user_id) "from" = some (Json.num 0)) ∧
    (badLimit ps = true →
      getVal? (build_query ps user_id) "size" = some (Json.num 20)) := by
  have hch := build_query_from_size ps user_id
  constructor
  · intro h
    unfold badOffset at h
    have hz : pageVal (lastVal? ps "offset") 0 = 0 := by
      cases ho : lastVal? ps "offset" with
      | none => rfl
      | some s =>
          rw [ho] at h
          dsimp only at h
          cases hi : pyInt? s with
          | none => simp [pageVal, hi]
          | some n =>
              rw [hi] at h
              dsimp only at h
              simp only [pageVal, hi]
              exact if_pos (of_decide_eq_true h)
    rw [hch.1, hz]
  · intro h
    unfold badLimit at h
    have hl : lastVal? (ps.filter (fun p => p.1 ≠ "offset")) "limit" =
        lastVal? ps "limit" := lastVal?_filter_ne ps "offset" "limit" (by decide)
    have hz : pageVal (lastVal? ps "limit") 20 = 20 := by
      cases ho : lastVal? ps "limit" with
      | none => rfl
      | some s =>
          rw [ho] at h
          dsimp only at h
          cases hi : pyInt? s with
          | none => simp [pageVal, hi]
          | some n =>
              rw [hi] at h
              dsimp only at h
              simp only [pageVal, hi]
              exact if_pos (of_decide_eq_true h)
    rw [hch.2, hl, hz]

/-- C7, witness: the spec examples, a negative offset and an unparsable
limit, both fall back to the defaults. -/
theorem claim_C7_witness :
    getVal? (build_query [("offset", "-1"), ("limit", "oops")] none) "from" =
      some (Json.num 0) ∧
    getVal? (build_query [("offset", "-1"), ("limit", "oops")] none) "size" =
      some (Json.num 20) :=
  ⟨(claim_C7 [("offset", "-1"), ("limit", "oops")] none).1 (by decide),
   (claim_C7 [("offset", "-1"), ("limit", "oops")] none).2 (by decide)⟩

/-- C8: a parameter set carrying only pagination, sort and order keys (or
nothing at all) produces a query whose inner boolean clause list is the
single match-all clause, which admits every record. -/
theorem claim_C8 (ps : Params) (user_id : Option String)
    (h : ∀ p ∈ ps, p.1 = "offset" ∨ p.1 = "limit" ∨ p.1 = "sort" ∨ p.1 = "order") :
    getVal? (build_query ps user_id) "query" =
      some (Json.obj [("filtered", Json.obj
        [("filter", nipsaFilterClause user_id),
         ("query", Json.obj [("bool", Json.obj [("must",
            Json.arr [Json.obj [("match_all", Json.obj [])]])])])])]) ∧
    ∀ record, evalClause (Json.obj [("bool", Json.obj [("must",
        Json.arr [Json.obj [("match_all", Json.obj [])]])])]) record = true := by
  constructor
  · have hrest := filter_chain_nil ps h
    simp only [build_query, popParam]
    rw [hrest]
    rfl
  · intro record
    rfl

/-- C8, witness: a parameter set with only a limit key produces the
match-all query, which admits a concrete record. -/
theorem claim_C8_witness :
    getVal? (build_query [("limit", "5")] none) "query" =
      some (Json.obj [("filtered", Json.obj
        [("filter", nipsaFilterClause none),
         ("query", Json.obj [("bool", Json.obj [("must",
            Json.arr [Json.obj [("match_all", Json.obj [])]])])])])]) ∧
    evalClause (Json.obj [("bool", Json.obj [("must",
        Json.arr [Json.obj [("match_all", Json.obj [])]])])])
      [("text", Json.str "hello")] = true :=
  ⟨(claim_C8 [("limit", "5")] none (by decide)).1,
   (claim_C8 [("limit", "5")] none (by decide)).2 [("text", Json.str "hello")]⟩

end Claims

end HApi
